import Mathlib

/-!
Verification of the truecart core: fact extraction (src/lib/extract.ts),
contradiction detection (src/lib/rules.ts), explanation mapping
(src/lib/explain.ts), insight/details builders (src/lib/summary.ts) and the
pipeline orchestrator (src/lib/analyzePipeline.ts) with its route handler.

The TypeScript is embedded shallowly: strings are Lean `String`s, JS regular
expressions are translated pattern-for-pattern into a small backtracking
matcher (`Pat`/`matchPat`/`searchFrom`) whose candidate order mirrors the JS
engine (leftmost start position first; within a position, alternation prefers
the left branch, greedy quantifiers prefer longer, lazy ones prefer shorter),
optional object fields become `Option`, and thrown exceptions become
`Except` errors carrying the message string.
-/

/-- JS whitespace class `\s`, restricted to the ASCII whitespace characters
(the inputs in scope contain no exotic Unicode spaces). -/
def jsWs (c : Char) : Bool :=
  c = ' ' || c = '\t' || c = '\n' || c = '\r' || c = '\x0b' || c = '\x0c'

/-- JS `.` (without the `s` flag): any character except a line terminator. -/
def jsDot (c : Char) : Bool :=
  !(c = '\n' || c = '\r' || c = ' ' || c = ' ')

/-- The class `[^.\n]` used by the warranty regex. -/
def notDotNl (c : Char) : Bool :=
  !(c = '.' || c = '\n')

/-- The class `[-\s]` (a dash or whitespace). -/
def dashOrWs (c : Char) : Bool :=
  c = '-' || jsWs c

/-- The currency-symbol class `[$€£₹]`. -/
def currencySym (c : Char) : Bool :=
  c = '$' || c = '€' || c = '£' || c = '₹'

/-- Case-insensitive character comparison, as the `i` regex flag does
for ASCII letters. -/
def lowerEq (a b : Char) : Bool :=
  a.toLower = b.toLower

/-- Regex fragment grammar covering every pattern in the source. Quantifiers
are restricted to single-character classes, which is all the source uses. -/
inductive Pat : Type where
  | eps : Pat
  | litci : String → Pat
  | cls : (Char → Bool) → Pat
  | seq : Pat → Pat → Pat
  | alt : Pat → Pat → Pat
  | optG : Pat → Pat
  | plusG : (Char → Bool) → Pat
  | starG : (Char → Bool) → Pat
  | starL : (Char → Bool) → Pat
  | repG : (Char → Bool) → Nat → Nat → Pat
  | repL : (Char → Bool) → Nat → Nat → Pat
  | grp : Pat → Pat

/-- Match a case-insensitive literal against the head of the input,
returning the remainder on success. -/
def matchLit : List Char → List Char → Option (List Char)
  | [], rest => some rest
  | _ :: _, [] => none
  | c :: cs, d :: ds => if lowerEq c d then matchLit cs ds else none

/-- Length of the maximal prefix of the input made of characters in the
class. -/
def classTake (p : Char → Bool) : List Char → Nat
  | [] => 0
  | c :: cs => if p c then classTake p cs + 1 else 0

/-- Capture list of one match: the captured substrings, in group order. -/
abbrev Caps := List (List Char)

/-- All matches of a pattern at the start of the input, as
(captures, remainder) pairs listed in JS backtracking priority order. -/
def matchPat : Pat → List Char → List (Caps × List Char)
  | .eps, s => [([], s)]
  | .litci l, s =>
    match matchLit l.data s with
    | some r => [([], r)]
    | none => []
  | .cls _, [] => []
  | .cls p, c :: cs => if p c then [([], cs)] else []
  | .seq p q, s =>
    (matchPat p s).flatMap fun pr =>
      (matchPat q pr.2).map fun qr => (pr.1 ++ qr.1, qr.2)
  | .alt p q, s => matchPat p s ++ matchPat q s
  | .optG p, s => matchPat p s ++ [([], s)]
  | .plusG cl, s =>
    let run := classTake cl s
    (List.range run).map fun i => ([], s.drop (run - i))
  | .starG cl, s =>
    let run := classTake cl s
    (List.range (run + 1)).map fun i => ([], s.drop (run - i))
  | .starL cl, s =>
    let run := classTake cl s
    (List.range (run + 1)).map fun i => ([], s.drop i)
  | .repG cl lo hi, s =>
    let run := min (classTake cl s) hi
    if run < lo then []
    else (List.range (run - lo + 1)).map fun i => ([], s.drop (run - i))
  | .repL cl lo hi, s =>
    let run := min (classTake cl s) hi
    if run < lo then []
    else (List.range (run - lo + 1)).map fun i => ([], s.drop (lo + i))
  | .grp p, s =>
    (matchPat p s).map fun pr =>
      (s.take (s.length - pr.2.length) :: pr.1, pr.2)

/-- First (highest-priority) capture list among the matches at one
position. -/
def firstCaps : List (Caps × List Char) → Option Caps
  | [] => none
  | (caps, _) :: _ => some caps

/-- JS `text.match(re)`: scan start positions left to right and take the
first successful position's highest-priority match. -/
def searchFrom (p : Pat) : List Char → Option Caps
  | [] => firstCaps (matchPat p [])
  | c :: cs =>
    match firstCaps (matchPat p (c :: cs)) with
    | some caps => some caps
    | none => searchFrom p cs

/-- JS `re.test(text)`. -/
def reTest (p : Pat) (t : String) : Bool :=
  (searchFrom p t.data).isSome

/-- JS `text.match(re)` returning the capture groups. -/
def reCaps (p : Pat) (t : String) : Option Caps :=
  searchFrom p t.data

/-- Sequence a list of fragments. -/
def pseq (ps : List Pat) : Pat :=
  ps.foldr Pat.seq Pat.eps

/-- JS `Number(...)` on a string of decimal digits. -/
def digitsToNat (cs : List Char) : Nat :=
  cs.foldl (fun a c => a * 10 + (c.toNat - 48)) 0

/-- JS `Number(...)` on a decimal numeral with an optional fraction part. -/
def parseAmount (cs : List Char) : Rat :=
  let ip := cs.takeWhile Char.isDigit
  let rest := cs.drop ip.length
  match rest with
  | [] => (digitsToNat ip : Rat)
  | _ :: fs => (digitsToNat ip : Rat) + (digitsToNat fs : Rat) / ((10 : Rat) ^ fs.length)

/-! Text normalizer and extractors, from src/lib/extract.ts. -/

/-- Collapse whitespace runs to single spaces, as
`text.replace(/\s+/g, " ")` does. The flag records whether the previous
character was part of a whitespace run. -/
def collapseWsAux : Bool → List Char → List Char
  | _, [] => []
  | prevWs, c :: cs =>
    if jsWs c then
      if prevWs then collapseWsAux true cs
      else ' ' :: collapseWsAux true cs
    else c :: collapseWsAux false cs

/-- JS `String.trim()`: strip whitespace from both ends. -/
def trimWs (cs : List Char) : List Char :=
  ((cs.dropWhile jsWs).reverse.dropWhile jsWs).reverse

/-- `normalize` from src/lib/extract.ts (renamed: Mathlib already has a root-level normalize):
`text.replace(/\s+/g, " ").trim()`. The identical expression is also used
by `firstSentences` and `normalize` in src/lib/summary.ts. -/
def normalizeText (s : String) : String :=
  ⟨trimWs (collapseWsAux false s.data)⟩

/-- The stock-status vocabulary of `ExtractedBase.stockStatus`. -/
inductive StockStatus : Type where
  | in_stock
  | out_of_stock
  | preorder
  | backorder
deriving DecidableEq, Repr

/-- The price-policy vocabulary of `ExtractedBase.pricePolicy`. -/
inductive PricePolicy : Type where
  | price_change
  | price_guarantee
  | price_match
deriving DecidableEq, Repr

/-- `ExtractedBase` from src/lib/extract.ts: every field is optional and
absence (`none`) is the JS `undefined`. `ExtractedClaims` and
`ExtractedPolicy` are both aliases of this shape in the source. -/
structure ExtractedFacts : Type where
  returnsDays : Option Nat := none
  returnsAllowed : Option Bool := none
  warrantyMonths : Option Nat := none
  warrantyProvided : Option Bool := none
  stockStatus : Option StockStatus := none
  priceValue : Option Rat := none
  priceGuarantee : Option Bool := none
  pricePolicy : Option PricePolicy := none
  stockWarning : Option Bool := none
deriving DecidableEq, Repr

/-- The JS empty object literal used by the orchestrator fallback. -/
def emptyFacts : ExtractedFacts := {}

/-- Regex `/return[s]?\s+within\s+(\d{1,3})\s+day/i`. -/
def returnsDaysP1 : Pat :=
  pseq [.litci "return", .optG (.litci "s"), .plusG jsWs, .litci "within",
    .plusG jsWs, .grp (.repG Char.isDigit 1 3), .plusG jsWs, .litci "day"]

/-- Regex `/(\d{1,3})\s+day[s]?\s+return/i`. -/
def returnsDaysP2 : Pat :=
  pseq [.grp (.repG Char.isDigit 1 3), .plusG jsWs, .litci "day",
    .optG (.litci "s"), .plusG jsWs, .litci "return"]

/-- Regex `/return[s]?\s+policy\s+.*?(\d{1,3})\s+day/i`. -/
def returnsDaysP3 : Pat :=
  pseq [.litci "return", .optG (.litci "s"), .plusG jsWs, .litci "policy",
    .plusG jsWs, .starL jsDot, .grp (.repG Char.isDigit 1 3), .plusG jsWs,
    .litci "day"]

/-- `findReturnDays`: try the three patterns in order; the first match's
captured integer wins. -/
def findReturnDays (text : String) : Option Nat :=
  match reCaps returnsDaysP1 text with
  | some (d :: _) => some (digitsToNat d)
  | _ =>
    match reCaps returnsDaysP2 text with
    | some (d :: _) => some (digitsToNat d)
    | _ =>
      match reCaps returnsDaysP3 text with
      | some (d :: _) => some (digitsToNat d)
      | _ => none

/-- Regex `/warranty[^.\n]{0,120}?(\d{1,2})\s*(year|years|month|months)/i`. -/
def warrantyP : Pat :=
  pseq [.litci "warranty", .repL notDotNl 0 120, .grp (.repG Char.isDigit 1 2),
    .starG jsWs,
    .grp (.alt (.litci "year")
      (.alt (.litci "years") (.alt (.litci "month") (.litci "months"))))]

/-- `findWarrantyMonths`: years are converted to months (times 12). -/
def findWarrantyMonths (text : String) : Option Nat :=
  match reCaps warrantyP text with
  | some [d, u] =>
    let value := digitsToNat d
    if "year".data.isPrefixOf (u.map Char.toLower) then some (value * 12)
    else some value
  | _ => none

/-- Regex `/out of stock|sold out|unavailable/i`. -/
def outOfStockP : Pat :=
  .alt (.litci "out of stock") (.alt (.litci "sold out") (.litci "unavailable"))

/-- Regex `/pre[-\s]?order/i`. -/
def preorderP : Pat :=
  pseq [.litci "pre", .optG (.cls dashOrWs), .litci "order"]

/-- Regex `/back\s?order/i`. -/
def backorderP : Pat :=
  pseq [.litci "back", .optG (.cls jsWs), .litci "order"]

/-- Regex `/in stock|available now|available/i`. -/
def inStockP : Pat :=
  .alt (.litci "in stock") (.alt (.litci "available now") (.litci "available"))

/-- `findStockStatus`: fixed priority order, first test that succeeds
wins. -/
def findStockStatus (text : String) : Option StockStatus :=
  if reTest outOfStockP text then some .out_of_stock
  else if reTest preorderP text then some .preorder
  else if reTest backorderP text then some .backorder
  else if reTest inStockP text then some .in_stock
  else none

/-- Regex `/(USD|INR|EUR|GBP|CAD|AUD|[$€£₹])\s*([0-9]+(?:\.[0-9]{2})?)/i`. -/
def priceValueP : Pat :=
  pseq [.grp (.alt (.litci "usd") (.alt (.litci "inr") (.alt (.litci "eur")
      (.alt (.litci "gbp") (.alt (.litci "cad") (.alt (.litci "aud")
        (.cls currencySym))))))),
    .starG jsWs,
    .grp (pseq [.plusG Char.isDigit,
      .optG (pseq [.cls (fun c => c = '.'), .repG Char.isDigit 2 2])])]

/-- `findPriceValue`: `Number(match[2])`. -/
def findPriceValue (text : String) : Option Rat :=
  match reCaps priceValueP text with
  | some [_, amt] => some (parseAmount amt)
  | _ => none

/-- Regex `/no returns|final sale|non[-\s]?returnable/i`. -/
def returnsNegP : Pat :=
  .alt (.litci "no returns") (.alt (.litci "final sale")
    (pseq [.litci "non", .optG (.cls dashOrWs), .litci "returnable"]))

/-- Regex `/returns accepted|free returns|return policy/i`. -/
def returnsPosP : Pat :=
  .alt (.litci "returns accepted")
    (.alt (.litci "free returns") (.litci "return policy"))

/-- `findReturnsAllowed`: negative phrasing wins over affirmative. -/
def findReturnsAllowed (text : String) : Option Bool :=
  if reTest returnsNegP text then some false
  else if reTest returnsPosP text then some true
  else none

/-- Regex `/no warranty|as[-\s]?is|without warranty/i`. -/
def warrantyNegP : Pat :=
  .alt (.litci "no warranty")
    (.alt (pseq [.litci "as", .optG (.cls dashOrWs), .litci "is"])
      (.litci "without warranty"))

/-- `findWarrantyProvided`: negative phrasing first, then any occurrence of
the word warranty. -/
def findWarrantyProvided (text : String) : Option Bool :=
  if reTest warrantyNegP text then some false
  else if reTest (.litci "warranty") text then some true
  else none

/-- Regex `/price match|price guarantee|price guaranteed/i`. -/
def priceGuaranteePosP : Pat :=
  .alt (.litci "price match")
    (.alt (.litci "price guarantee") (.litci "price guaranteed"))

/-- Regex `/prices subject to change|reserve the right to change prices/i`. -/
def priceChangeP : Pat :=
  .alt (.litci "prices subject to change")
    (.litci "reserve the right to change prices")

/-- `findPriceGuarantee`. -/
def findPriceGuarantee (text : String) : Option Bool :=
  if reTest priceGuaranteePosP text then some true
  else if reTest priceChangeP text then some false
  else none

/-- `findPricePolicy`: mutually exclusive by check order. -/
def findPricePolicy (text : String) : Option PricePolicy :=
  if reTest (.litci "price match") text then some .price_match
  else if reTest (.alt (.litci "price guarantee") (.litci "price guaranteed"))
      text then some .price_guarantee
  else if reTest priceChangeP text then some .price_change
  else none

/-- Regex `/subject to availability|availability not guaranteed/i`; note the
return type is Bool, never undefined. -/
def findStockWarning (text : String) : Bool :=
  reTest (.alt (.litci "subject to availability")
    (.litci "availability not guaranteed")) text

/-- `extractClaims` from src/lib/extract.ts: the returned object carries no
pricePolicy and no stockWarning key. -/
def extractClaims (productText : String) : ExtractedFacts :=
  let text := normalizeText productText
  { returnsDays := findReturnDays text
    returnsAllowed := findReturnsAllowed text
    warrantyMonths := findWarrantyMonths text
    warrantyProvided := findWarrantyProvided text
    stockStatus := findStockStatus text
    priceValue := findPriceValue text
    priceGuarantee := findPriceGuarantee text
    pricePolicy := none
    stockWarning := none }

/-- `extractPolicy` from src/lib/extract.ts: no stockStatus, priceValue or
priceGuarantee key, and stockWarning is always assigned a boolean. -/
def extractPolicy (policyText : String) : ExtractedFacts :=
  let text := normalizeText policyText
  { returnsDays := findReturnDays text
    returnsAllowed := findReturnsAllowed text
    warrantyMonths := findWarrantyMonths text
    warrantyProvided := findWarrantyProvided text
    stockStatus := none
    priceValue := none
    priceGuarantee := none
    pricePolicy := findPricePolicy text
    stockWarning := some (findStockWarning text) }

/-! Contradiction detector, from src/lib/rules.ts. -/

/-- `RuleFlag` from src/lib/rules.ts. -/
inductive RuleFlag : Type where
  | returns_conflict
  | warranty_conflict
  | stock_conflict
  | price_conflict
  | unclear
  | invalid_url
  | analysis_failed
  | dev_only
deriving DecidableEq, Repr

/-- The string literal each flag stands for in the TypeScript union. -/
def flagName : RuleFlag → String
  | .returns_conflict => "returns_conflict"
  | .warranty_conflict => "warranty_conflict"
  | .stock_conflict => "stock_conflict"
  | .price_conflict => "price_conflict"
  | .unclear => "unclear"
  | .invalid_url => "invalid_url"
  | .analysis_failed => "analysis_failed"
  | .dev_only => "dev_only"

/-- JS `String.endsWith`. -/
def strEndsWith (s suffix : String) : Bool :=
  suffix.data.isSuffixOf s.data

/-- The verdict vocabulary. -/
inductive Verdict : Type where
  | good
  | caution
  | risk
  | unclear
deriving DecidableEq, Repr

/-- `RuleResult` from src/lib/rules.ts. -/
structure RuleResult : Type where
  flags : List RuleFlag
  verdict : Verdict
deriving DecidableEq, Repr

/-- The flag-accumulation half of `detectContradictions` from
src/lib/rules.ts (lines 22 to 114), with the sequential `flags.push` calls
rendered as successive list appends in the same order. -/
def detectFlags (claims policy : ExtractedFacts) : List RuleFlag :=
  let flags : List RuleFlag := []
  let flags := if (match claims.returnsDays, policy.returnsDays with
    | some a, some b => decide (a > b)
    | _, _ => false) then flags ++ [.returns_conflict] else flags
  let flags := if claims.returnsAllowed == some true
      && policy.returnsAllowed == some false then
    flags ++ [.returns_conflict] else flags
  let flags := if claims.returnsAllowed == some false
      && policy.returnsAllowed == some true then
    flags ++ [.returns_conflict] else flags
  let flags := if (match claims.warrantyMonths, policy.warrantyMonths with
    | some a, some b => decide (a > b)
    | _, _ => false) then flags ++ [.warranty_conflict] else flags
  let flags := if claims.warrantyProvided == some true
      && policy.warrantyProvided == some false then
    flags ++ [.warranty_conflict] else flags
  let flags := if claims.stockStatus == some StockStatus.in_stock
      && policy.stockWarning == some true then
    flags ++ [.stock_conflict] else flags
  let flags := if claims.priceGuarantee == some true
      && policy.pricePolicy == some PricePolicy.price_change then
    flags ++ [.price_conflict] else flags
  let returnsClaimed := claims.returnsDays.isSome || claims.returnsAllowed.isSome
  let returnsPolicyCov := policy.returnsDays.isSome || policy.returnsAllowed.isSome
  let warrantyClaimed := claims.warrantyMonths.isSome || claims.warrantyProvided.isSome
  let warrantyPolicyCov := policy.warrantyMonths.isSome || policy.warrantyProvided.isSome
  let stockClaimed := claims.stockStatus.isSome
  let stockPolicyCov := policy.stockWarning.isSome
  let priceClaimed := claims.priceGuarantee.isSome || claims.priceValue.isSome
  let pricePolicyCov := policy.pricePolicy.isSome
  let flags := if (returnsClaimed && !returnsPolicyCov)
      || (warrantyClaimed && !warrantyPolicyCov)
      || (stockClaimed && !stockPolicyCov)
      || (priceClaimed && !pricePolicyCov) then
    flags ++ [.unclear] else flags
  let hasAnySignal := returnsClaimed || returnsPolicyCov
      || warrantyClaimed || warrantyPolicyCov
      || stockClaimed || stockPolicyCov
      || priceClaimed || pricePolicyCov
  let flags := if !hasAnySignal then flags ++ [.unclear] else flags
  flags

/-- The verdict computation of `detectContradictions` (src/lib/rules.ts
lines 116 to 124), as a function of the accumulated flag list. -/
def verdictOfFlags (flags : List RuleFlag) : Verdict :=
  let hasConflict := flags.any fun flag => strEndsWith (flagName flag) "_conflict"
  let hasUnclear := flags.contains RuleFlag.unclear
  if hasConflict then .risk
  else if hasUnclear then .unclear
  else if flags.length != 0 then .caution
  else .good

/-- `detectContradictions` from src/lib/rules.ts: accumulate the flags,
then derive the verdict from them. -/
def detectContradictions (claims policy : ExtractedFacts) : RuleResult :=
  let flags := detectFlags claims policy
  ⟨flags, verdictOfFlags flags⟩

/-! Explanation mapper, from src/lib/explain.ts. -/

/-- The `EXPLANATIONS` record. -/
def EXPLANATIONS : RuleFlag → String
  | .returns_conflict =>
    "Return terms on the product page conflict with the returns policy."
  | .warranty_conflict =>
    "Warranty claims on the product page conflict with the warranty policy."
  | .stock_conflict =>
    "Stock claims on the product page conflict with availability warnings."
  | .price_conflict =>
    "Price guarantees on the product page conflict with pricing policies."
  | .unclear =>
    "Unclear: not enough explicit text to verify claims against policies."
  | .invalid_url => "URL is missing or invalid."
  | .analysis_failed => "Analysis failed. Try again or use a test URL in dev."
  | .dev_only => "Development mode only supports the test URLs."

/-- `explainFlags`. -/
def explainFlags (flags : List RuleFlag) : List String :=
  flags.map EXPLANATIONS

/-! Insight and details builders, from src/lib/summary.ts (part_003). -/

/-- Build a String from a character list. -/
def strOf (cs : List Char) : String := ⟨cs⟩

/-- JS `String.trim()` on a String. -/
def jsTrim (s : String) : String := strOf (trimWs s.data)

/-- Split on the lookbehind separator `(?<=[.!?])\s+`: in already-collapsed
text every whitespace run is a single blank, so a boundary is a blank whose
previous character is sentence punctuation (the accumulator holds the
current part reversed, so its head is the previous character). -/
def splitSentencesAux (acc : List Char) : List Char → List (List Char)
  | [] => [acc.reverse]
  | c :: cs =>
    if c = ' ' && (match acc with
        | p :: _ => p = '.' || p = '!' || p = '?'
        | [] => false) then
      acc.reverse :: splitSentencesAux [] cs
    else
      splitSentencesAux (c :: acc) cs

/-- `firstSentences` from src/lib/summary.ts. -/
def firstSentences (text : String) (maxSentences : Nat) : String :=
  let cleaned := normalizeText text
  if cleaned = "" then ""
  else
    let parts := splitSentencesAux [] cleaned.data
    jsTrim (String.intercalate " " ((parts.take maxSentences).map strOf))

/-- Scheme characters allowed after the first letter of a URL scheme. -/
def isSchemeChar (c : Char) : Bool :=
  c.isAlphanum || c = '+' || c = '-' || c = '.'

/-- Minimal model of the WHATWG URL constructor (a platform builtin, not
repository code): a string parses when it starts with an ASCII letter
followed by scheme characters and a colon. The theorems below rely on it
only to reject the empty string and accept the allow-listed test URLs. -/
def urlCanParse (s : String) : Bool :=
  match s.data with
  | [] => false
  | c :: rest => c.isAlpha && ((rest.dropWhile isSchemeChar).head? == some ':')

/-- Pathname of a parsed URL under the same minimal model: the part after
the authority, stopping at a query or fragment. -/
def urlPathname (s : String) : String :=
  let afterColon := (s.data.dropWhile (· != ':')).drop 1
  match afterColon with
  | '/' :: '/' :: rest =>
    strOf ((rest.dropWhile (· != '/')).takeWhile fun c => c != '?' && c != '#')
  | other => strOf (other.takeWhile fun c => c != '?' && c != '#')

/-- JS `text.split(/\r?\n/)`: a CRLF pair or a lone LF separates lines; a
lone CR does not. -/
def splitLinesAux (acc : List Char) : List Char → List String
  | [] => [strOf acc.reverse]
  | '\r' :: '\n' :: rest => strOf acc.reverse :: splitLinesAux [] rest
  | '\n' :: rest => strOf acc.reverse :: splitLinesAux [] rest
  | c :: rest => splitLinesAux (c :: acc) rest

/-- `extractProductName` from src/lib/summary.ts. -/
def extractProductName (productText fallbackUrl : String) : String :=
  let lines := ((splitLinesAux [] productText.data).map jsTrim).filter (· != "")
  let candidate := (lines.find? fun line =>
    decide (line.length ≥ 6) && decide ((line.splitOn " ").length ≥ 2)).getD ""
  if candidate != "" then candidate.take 120
  else if urlCanParse fallbackUrl then
    let slug := ((((urlPathname fallbackUrl).splitOn "/").filter (· != "")).getLast?).getD "Product"
    (strOf (slug.data.map fun c => if c = '-' || c = '_' then ' ' else c)).take 120
  else "Product"

/-- Regex `/(USD|INR|EUR|GBP|CAD|AUD|[$€£₹])\s*([0-9]+(?:\.[0-9]{1,2})?)/i`
from `extractPriceLabel` (fraction part one or two digits here). -/
def priceLabelP : Pat :=
  pseq [.grp (.alt (.litci "usd") (.alt (.litci "inr") (.alt (.litci "eur")
      (.alt (.litci "gbp") (.alt (.litci "cad") (.alt (.litci "aud")
        (.cls currencySym))))))),
    .starG jsWs,
    .grp (pseq [.plusG Char.isDigit,
      .optG (pseq [.cls (fun c => c = '.'), .repG Char.isDigit 1 2])])]

/-- `extractPriceLabel` from src/lib/summary.ts. -/
def extractPriceLabel (productText : String) : Option String :=
  match reCaps priceLabelP productText with
  | some [cur, amt] =>
    let currency := strOf (cur.map Char.toUpper)
    let amount := strOf amt
    some (if currency.length = 1 then currency ++ amount
      else currency ++ " " ++ amount)
  | _ => none

/-- Policy presence marker. -/
inductive PolicyStatus : Type where
  | present
  | missing
deriving DecidableEq, Repr

/-- `describeHiddenFindings` from src/lib/summary.ts, sequential pushes
rendered as concatenation in the same order. -/
def describeHiddenFindings (flags : List RuleFlag) (policyStatus : PolicyStatus) :
    List String :=
  (if flags.contains .returns_conflict then
    ["Return policy claims conflict with policy details."] else []) ++
  (if flags.contains .warranty_conflict then
    ["Warranty terms conflict between product and policy."] else []) ++
  (if flags.contains .stock_conflict then
    ["Stock availability conflicts with policy warnings."] else []) ++
  (if flags.contains .price_conflict then
    ["Price guarantees conflict with policy price changes."] else []) ++
  (if flags.contains .unclear then
    ["Some claims lack clear policy coverage."] else []) ++
  (if policyStatus = .missing then
    ["No policy pages were found to verify hidden costs or terms."] else [])

/-- `ProductInsight` from src/lib/summary.ts. -/
structure ProductInsight : Type where
  message : String
  summary : String
  pros : List String
  cons : List String
  policyStatus : PolicyStatus
deriving DecidableEq, Repr

/-- `buildProductInsight` from src/lib/summary.ts. -/
def buildProductInsight (productText policyText : String)
    (claims policy : ExtractedFacts) : ProductInsight :=
  let policyStatus := if jsTrim policyText != "" then PolicyStatus.present
    else PolicyStatus.missing
  let sentences := firstSentences productText 2
  let summary := if sentences != "" then sentences
    else "Product details are limited, but available information suggests a standard offering."
  let pros :=
    (if claims.returnsAllowed == some true then ["Returns are allowed."] else []) ++
    (if claims.warrantyProvided == some true then ["Warranty coverage is mentioned."] else []) ++
    (if claims.stockStatus == some StockStatus.in_stock then ["Item appears in stock."] else []) ++
    (if claims.priceValue.isSome then ["Price is listed."] else []) ++
    (if claims.priceGuarantee == some true then ["Price guarantee is mentioned."] else [])
  let cons :=
    (if claims.returnsAllowed == some false then ["Returns may not be allowed."] else []) ++
    (if claims.warrantyProvided == some false then ["No warranty is indicated."] else []) ++
    (if policy.stockWarning == some true then ["Availability may be limited."] else []) ++
    (if policy.pricePolicy == some PricePolicy.price_change then
      ["Prices can change without notice."] else [])
  let pros := if pros.isEmpty then ["Limited product assurances detected."] else pros
  let cons := if cons.isEmpty then ["No major policy drawbacks detected."] else cons
  let message := if policyStatus = PolicyStatus.missing then
    "No hidden policy pages were found, and no flags were raised."
    else "No hidden policy conflicts or flags were detected."
  ⟨message, summary, pros, cons, policyStatus⟩

/-- `ProductDetails` from src/lib/summary.ts. -/
structure ProductDetails : Type where
  name : String
  price : Option String
  flags : List RuleFlag
  hiddenFindings : List String
  policyStatus : PolicyStatus
deriving DecidableEq, Repr

/-- `buildProductDetails` from src/lib/summary.ts; the claims and policy
parameters are declared but unused in the source body as well. -/
def buildProductDetails (url productText policyText : String)
    (flags : List RuleFlag) (claims policy : ExtractedFacts) : ProductDetails :=
  let policyStatus := if jsTrim policyText != "" then PolicyStatus.present
    else PolicyStatus.missing
  let name := extractProductName productText url
  let price := extractPriceLabel productText
  let hiddenFindings := describeHiddenFindings flags policyStatus
  ⟨name, price, flags, hiddenFindings, policyStatus⟩

/-! Pipeline orchestrator, from src/lib/analyzePipeline.ts (part_001). -/

/-- `StepStatus`. -/
inductive StepStatus : Type where
  | done
  | failed
deriving DecidableEq, Repr

/-- `TraceStep`. Wall-clock durations are modeled as the constant 0; the
plain pushes in the source (URL validation, test-case loading) carry no
durationMs at all and are modeled with `none`. -/
structure TraceStep : Type where
  name : String
  status : StepStatus
  durationMs : Option Nat := none
  detail : Option String := none
deriving DecidableEq, Repr

/-- A step recorded by `trackStep` on success. -/
def doneStep (name : String) : TraceStep := ⟨name, .done, some 0, none⟩

/-- A step recorded by `trackStep` on failure: the detail is the thrown
error message. -/
def failedStep (name detail : String) : TraceStep :=
  ⟨name, .failed, some 0, some detail⟩

/-- `AnalyzeResult`. `processingMs` is modeled as the constant 0. -/
structure AnalyzeResult : Type where
  verdict : Verdict
  flags : List RuleFlag
  explanations : List String
  processingMs : Nat
  steps : List TraceStep
  insight : Option ProductInsight
  details : ProductDetails
  previewImage : Option String
deriving DecidableEq, Repr

/-- `MinoResult` from src/lib/mino.ts: the validated shape returned by the
external content-retrieval agent. Policy pages are (url, text) pairs. -/
structure MinoResult : Type where
  productUrl : String
  productText : String
  policyPages : List (String × String)

/-- The environment of one run: the NODE_ENV production switch and the
outcome of the external `runMinoAgent` call for each URL (a network-bound
collaborator: it can throw, which an `Except.error` with the message
models). -/
structure Env : Type where
  isProduction : Bool
  mino : String → Except String MinoResult

/-- The `TEST_CASES` table, mapping each allow-listed URL to its
(productText, policyText) pair. -/
def TEST_CASES (url : String) : Option (String × String) :=
  if url = "https://example.com/product/clear" then
    some ("In stock. Returns accepted within 30 days. 1 year warranty included.",
      "Return policy: returns accepted within 30 days. Warranty lasts 12 months.")
  else if url = "https://example.com/product/conflict" then
    some ("Price match guarantee. In stock. Free returns in 30 days.",
      "Prices subject to change without notice. Availability not guaranteed.")
  else if url = "https://example.com/product/unclear" then
    some ("Warranty included.", "")
  else none

/-- The `respond` closure inside `analyzeProduct`: verdict defaults to
unclear, details are built from empty texts and empty fact objects. -/
def respondResult (url : String) (flags : List RuleFlag)
    (steps : List TraceStep) : AnalyzeResult :=
  { verdict := .unclear
    flags := flags
    explanations := explainFlags flags
    processingMs := 0
    steps := steps
    insight := none
    details := buildProductDetails url "" "" flags emptyFacts emptyFacts
    previewImage := none }

/-- `analyzeProduct` from src/lib/analyzePipeline.ts. A thrown error is an
`Except.error` carrying the message and the trace as recorded up to and
including the failed step (`trackStep` appends the failed step and
re-throws). The pure stages (extraction, detection, explanation) cannot
throw, so their `trackStep` wrappers always record done steps; the only
fallible stage is the external Mino call. The `onStep` event sink only
emits progress events and contributes nothing to the returned value, so it
is not modeled. In the production branch the source passes a seventh
argument to `buildProductDetails` and reads `mino.previewImage`; the callee
takes six parameters and `MinoResult` has no previewImage field, so the
extra argument is dropped and previewImage is `none`. -/
def analyzeProduct (env : Env) (url : String) :
    Except (String × List TraceStep) AnalyzeResult :=
  if url = "" then
    .ok (respondResult url [.invalid_url]
      [⟨"Validate URL", .failed, none, some "Missing URL"⟩])
  else if !urlCanParse url then
    .ok (respondResult url [.invalid_url]
      [⟨"Validate URL", .failed, none, some "Invalid URL"⟩])
  else
    let steps0 : List TraceStep := [⟨"Validate URL", .done, none, none⟩]
    if !env.isProduction then
      match TEST_CASES url with
      | none =>
        .ok (respondResult url [.dev_only]
          (steps0 ++ [⟨"Load test case", .failed, none, some "Unknown test URL"⟩]))
      | some tc =>
        let steps1 := steps0 ++ [⟨"Load test case", .done, none, none⟩]
        let claims := extractClaims tc.1
        let steps2 := steps1 ++ [doneStep "Extract claims"]
        let policy := extractPolicy tc.2
        let steps3 := steps2 ++ [doneStep "Extract policy"]
        let rules := detectContradictions claims policy
        let steps4 := steps3 ++ [doneStep "Detect contradictions"]
        let explanations := explainFlags rules.flags
        let steps5 := steps4 ++ [doneStep "Explain flags"]
        let insight := if rules.flags.length = 0 then
          some (buildProductInsight tc.1 tc.2 claims policy) else none
        let details := buildProductDetails url tc.1 tc.2 rules.flags claims policy
        .ok { verdict := rules.verdict, flags := rules.flags
              explanations := explanations, processingMs := 0, steps := steps5
              insight := insight, details := details, previewImage := none }
    else
      match env.mino url with
      | .error e => .error (e, steps0 ++ [failedStep "Fetch Mino data" e])
      | .ok mino =>
        let steps1 := steps0 ++ [doneStep "Fetch Mino data"]
        let policyText := String.intercalate "\n" (mino.policyPages.map Prod.snd)
        let steps2 := steps1 ++ [doneStep "Compile policy text"]
        let claims := extractClaims mino.productText
        let steps3 := steps2 ++ [doneStep "Extract claims"]
        let policy := extractPolicy policyText
        let steps4 := steps3 ++ [doneStep "Extract policy"]
        let rules := detectContradictions claims policy
        let steps5 := steps4 ++ [doneStep "Detect contradictions"]
        let explanations := explainFlags rules.flags
        let steps6 := steps5 ++ [doneStep "Explain flags"]
        let insight := if rules.flags.length = 0 || jsTrim policyText = "" then
          some (buildProductInsight mino.productText policyText claims policy)
          else none
        let details := buildProductDetails url mino.productText policyText
          rules.flags claims policy
        .ok { verdict := rules.verdict, flags := rules.flags
              explanations := explanations, processingMs := 0, steps := steps6
              insight := insight, details := details, previewImage := none }

/-! The analyze route handler that delegates to the pipeline
(src/unnamed/part_000, first file). -/

/-- The complete fallback literal from the handler's outer catch
(part_000 lines 26 to 42). The literal also carries a description key that
the `ProductDetails` type does not declare. -/
def analysisFailedFallback : AnalyzeResult :=
  { verdict := .unclear
    flags := [.analysis_failed]
    explanations := explainFlags [.analysis_failed]
    processingMs := 0
    steps := []
    insight := none
    details := { name := "", price := none, flags := [], hiddenFindings := []
                 policyStatus := .missing }
    previewImage := none }

/-- The POST handler of part_000. It invokes `trackStep` to parse the
request body and `respond` in the parse catch clause, but neither
identifier is defined or imported in that module: evaluating an unresolved
identifier throws a ReferenceError in JS, which the forced error branches
model. The code from the url-trim line onward (including the outer catch
around `analyzeProduct` with the complete fallback literal) is modeled
faithfully even though the parse step throws before it can run. -/
def partZeroPOST (env : Env) (parsedBody : Except String (Option String)) :
    Except String AnalyzeResult :=
  match (Except.error "trackStep is not defined" :
      Except String (Option String)) with
  | .ok body =>
    let url := jsTrim (body.getD "")
    match analyzeProduct env url with
    | .ok r => .ok r
    | .error _ => .ok analysisFailedFallback
  | .error _ => .error "respond is not defined"

/-- The try/catch around `analyzeProduct` in part_000 (lines 21 to 43),
taken on its own: the conversion the outer catch performs on a url once a
body is in hand. -/
def partZeroAnalyzeSection (env : Env) (url : String) : AnalyzeResult :=
  match analyzeProduct env url with
  | .ok r => r
  | .error _ => analysisFailedFallback

/-! Spec-side definitions: the rule table, coverage-gap, no-signal and
verdict derivation exactly as section 4.3 of the specification words them.
These are compared against the source embedding above. -/

/-- A flag whose name ends in the suffix that marks a conflict. -/
def flagEndsInConflict (f : RuleFlag) : Bool :=
  strEndsWith (flagName f) "_conflict"

/-- Spec rule 1: returnsDays present on both sides and the claim exceeds
the policy. -/
def rule1Fires (c p : ExtractedFacts) : Bool :=
  match c.returnsDays, p.returnsDays with
  | some a, some b => decide (a > b)
  | _, _ => false

/-- Spec rule 2: returns claimed allowed but policy disallows. -/
def rule2Fires (c p : ExtractedFacts) : Bool :=
  c.returnsAllowed == some true && p.returnsAllowed == some false

/-- Spec rule 3: returns claimed disallowed but policy allows. -/
def rule3Fires (c p : ExtractedFacts) : Bool :=
  c.returnsAllowed == some false && p.returnsAllowed == some true

/-- Spec rule 4: warrantyMonths present on both sides and the claim exceeds
the policy. -/
def rule4Fires (c p : ExtractedFacts) : Bool :=
  match c.warrantyMonths, p.warrantyMonths with
  | some a, some b => decide (a > b)
  | _, _ => false

/-- Spec rule 5: warranty claimed provided but policy denies it. -/
def rule5Fires (c p : ExtractedFacts) : Bool :=
  c.warrantyProvided == some true && p.warrantyProvided == some false

/-- Spec rule 6: claimed in stock while the policy carries a stock
warning. -/
def rule6Fires (c p : ExtractedFacts) : Bool :=
  c.stockStatus == some StockStatus.in_stock && p.stockWarning == some true

/-- Spec rule 7: price guarantee claimed while the policy reserves price
changes. -/
def rule7Fires (c p : ExtractedFacts) : Bool :=
  c.priceGuarantee == some true && p.pricePolicy == some PricePolicy.price_change

/-- The returns topic is claimed. -/
def returnsClaimedB (c : ExtractedFacts) : Bool :=
  c.returnsDays.isSome || c.returnsAllowed.isSome

/-- The returns topic is policy-covered. -/
def returnsCoveredB (p : ExtractedFacts) : Bool :=
  p.returnsDays.isSome || p.returnsAllowed.isSome

/-- The warranty topic is claimed. -/
def warrantyClaimedB (c : ExtractedFacts) : Bool :=
  c.warrantyMonths.isSome || c.warrantyProvided.isSome

/-- The warranty topic is policy-covered. -/
def warrantyCoveredB (p : ExtractedFacts) : Bool :=
  p.warrantyMonths.isSome || p.warrantyProvided.isSome

/-- The stock topic is claimed. -/
def stockClaimedB (c : ExtractedFacts) : Bool :=
  c.stockStatus.isSome

/-- The stock topic is policy-covered. -/
def stockCoveredB (p : ExtractedFacts) : Bool :=
  p.stockWarning.isSome

/-- The price topic is claimed. -/
def priceClaimedB (c : ExtractedFacts) : Bool :=
  c.priceGuarantee.isSome || c.priceValue.isSome

/-- The price topic is policy-covered. -/
def priceCoveredB (p : ExtractedFacts) : Bool :=
  p.pricePolicy.isSome

/-- Coverage-gap rule: some topic is claimed but not policy-covered. -/
def coverageGapFires (c p : ExtractedFacts) : Bool :=
  (returnsClaimedB c && !returnsCoveredB p)
  || (warrantyClaimedB c && !warrantyCoveredB p)
  || (stockClaimedB c && !stockCoveredB p)
  || (priceClaimedB c && !priceCoveredB p)

/-- Some topic carries a recognized fact on either side. -/
def anySignalB (c p : ExtractedFacts) : Bool :=
  returnsClaimedB c || returnsCoveredB p
  || warrantyClaimedB c || warrantyCoveredB p
  || stockClaimedB c || stockCoveredB p
  || priceClaimedB c || priceCoveredB p

/-- No-signal rule: neither side carries any recognized fact. -/
def noSignalFires (c p : ExtractedFacts) : Bool :=
  !anySignalB c p

/-- The flag list as section 4.3 enumerates it: each rule independently
contributes its flag, in the fixed order rule 1 through rule 7, then the
coverage-gap unclear, then the no-signal unclear. -/
def ruleFlagsSpec (c p : ExtractedFacts) : List RuleFlag :=
  (if rule1Fires c p then [.returns_conflict] else []) ++
  (if rule2Fires c p then [.returns_conflict] else []) ++
  (if rule3Fires c p then [.returns_conflict] else []) ++
  (if rule4Fires c p then [.warranty_conflict] else []) ++
  (if rule5Fires c p then [.warranty_conflict] else []) ++
  (if rule6Fires c p then [.stock_conflict] else []) ++
  (if rule7Fires c p then [.price_conflict] else []) ++
  (if coverageGapFires c p then [.unclear] else []) ++
  (if noSignalFires c p then [.unclear] else [])

/-- Verdict derivation as section 4.3 words it: first match wins among any
conflict-suffixed flag, then the unclear flag, then any flag at all, else
good. -/
def verdictFromFlagsSpec (flags : List RuleFlag) : Verdict :=
  if ∃ f ∈ flags, flagEndsInConflict f = true then .risk
  else if RuleFlag.unclear ∈ flags then .unclear
  else if flags ≠ [] then .caution
  else .good

/-- A fact set with every field absent, as the spec words the failure mode
of the extractors. -/
def allFieldsAbsent (f : ExtractedFacts) : Bool :=
  f.returnsDays.isNone && f.returnsAllowed.isNone && f.warrantyMonths.isNone
  && f.warrantyProvided.isNone && f.stockStatus.isNone && f.priceValue.isNone
  && f.priceGuarantee.isNone && f.pricePolicy.isNone && f.stockWarning.isNone

/-! Concrete fixtures used by the claim theorems and witnesses. -/

/-- A non-production environment (NODE_ENV is not production); the Mino
collaborator is never invoked on this path, so its behavior is arbitrary. -/
def devEnv : Env := ⟨false, fun _ => Except.error "Mino API error: 500"⟩

/-- A production environment whose external Mino call fails. -/
def prodFailEnv : Env := ⟨true, fun _ => Except.error "network down"⟩

/-- Project the ok value of a pipeline run, with a default for the error
case. -/
def okOr (d : AnalyzeResult) :
    Except (String × List TraceStep) AnalyzeResult → AnalyzeResult
  | .ok r => r
  | .error _ => d

/-- The allow-listed test URLs. -/
def clearUrl : String := "https://example.com/product/clear"

/-- The conflict-scenario test URL. -/
def conflictUrl : String := "https://example.com/product/conflict"

/-- The unclear-scenario test URL. -/
def unclearUrl : String := "https://example.com/product/unclear"

/-- The result of a non-production run on a URL (the dev path cannot
throw, so the fallback default is never taken). -/
def devResultFor (url : String) : AnalyzeResult :=
  okOr analysisFailedFallback (analyzeProduct devEnv url)

/-- The terminal result `analyzeProduct` returns for an empty URL. -/
def invalidUrlResult : AnalyzeResult :=
  respondResult "" [.invalid_url]
    [⟨"Validate URL", .failed, none, some "Missing URL"⟩]

/-- A claim fact set with two topics claimed (returns and warranty) against
an empty policy fact set: both topics are claimed but not policy-covered. -/
def gapClaims : ExtractedFacts :=
  { returnsAllowed := some true, warrantyProvided := some true }

/-- The claim-side fact set of Scenario B. -/
def scenarioBClaims : ExtractedFacts :=
  extractClaims "Price match guarantee. In stock. Free returns in 30 days."

/-- The policy-side fact set of Scenario B. -/
def scenarioBPolicy : ExtractedFacts :=
  extractPolicy "Prices subject to change without notice. Availability not guaranteed."

/-! Helper lemmas shared by the claim theorems. -/

/-- Appending a conditional singleton commutes with the conditional. -/
theorem ite_append_singleton {α : Type} (c : Prop) [Decidable c] (xs : List α) (a : α) :
    (if c then xs ++ [a] else xs) = xs ++ (if c then [a] else []) := by
  split <;> simp

/-- The sequentially accumulated flag list equals the spec's concatenation
of independent rule contributions, in rule order. -/
theorem detect_flags_concat (c p : ExtractedFacts) :
    detectFlags c p = ruleFlagsSpec c p := by
  simp only [detectFlags, ruleFlagsSpec, rule1Fires, rule2Fires, rule3Fires,
    rule4Fires, rule5Fires, rule6Fires, rule7Fires, coverageGapFires,
    noSignalFires, anySignalB, returnsClaimedB, returnsCoveredB,
    warrantyClaimedB, warrantyCoveredB, stockClaimedB, stockCoveredB,
    priceClaimedB, priceCoveredB]
  rw [ite_append_singleton, ite_append_singleton, ite_append_singleton,
    ite_append_singleton, ite_append_singleton, ite_append_singleton,
    ite_append_singleton, ite_append_singleton, ite_append_singleton]
  simp only [List.nil_append, List.append_assoc]

/-- The source's verdict computation agrees with the spec's wording of the
derivation. -/
theorem verdict_spec_eq (fl : List RuleFlag) :
    verdictOfFlags fl = verdictFromFlagsSpec fl := by
  unfold verdictOfFlags verdictFromFlagsSpec flagEndsInConflict
  have hany : (fl.any fun flag => strEndsWith (flagName flag) "_conflict") = true
      ↔ ∃ f ∈ fl, strEndsWith (flagName f) "_conflict" = true := List.any_eq_true
  have hmem : fl.contains RuleFlag.unclear = true ↔ RuleFlag.unclear ∈ fl :=
    List.elem_iff
  have hlen : (fl.length != 0) = true ↔ fl ≠ [] := by
    cases fl <;> simp
  by_cases h1 : ∃ f ∈ fl, strEndsWith (flagName f) "_conflict" = true
  · simp [hany.mpr h1, h1]
  · have ha : (fl.any fun flag => strEndsWith (flagName flag) "_conflict") = false := by
      rw [Bool.eq_false_iff, Ne, hany]; exact h1
    by_cases h2 : RuleFlag.unclear ∈ fl
    · have hc := hmem.mpr h2
      simp [ha, h1, hc, h2]
    · have hc : fl.contains RuleFlag.unclear = false := by
        rw [Bool.eq_false_iff, Ne, hmem]; exact h2
      by_cases h3 : fl = []
      · subst h3; simp
      · have hl := hlen.mpr h3
        simp [ha, h1, hc, h2, hl, h3]

/-- How many unclear flags the spec's flag list carries: one per firing
unclear rule. -/
theorem count_unclear_ruleFlagsSpec (c p : ExtractedFacts) :
    (ruleFlagsSpec c p).count RuleFlag.unclear
      = (if coverageGapFires c p then 1 else 0)
        + (if noSignalFires c p then 1 else 0) := by
  unfold ruleFlagsSpec
  simp only [List.count_append, apply_ite (List.count RuleFlag.unclear),
    List.count_cons, List.count_nil]
  simp

/-- A coverage gap requires a claimed topic, so the no-signal rule cannot
fire in the same run. -/
theorem gap_implies_signal (c p : ExtractedFacts) :
    coverageGapFires c p = true → noSignalFires c p = false := by
  unfold coverageGapFires noSignalFires anySignalB
  generalize returnsClaimedB c = a
  generalize returnsCoveredB p = b
  generalize warrantyClaimedB c = d
  generalize warrantyCoveredB p = e
  generalize stockClaimedB c = f
  generalize stockCoveredB p = g
  generalize priceClaimedB c = h
  generalize priceCoveredB p = i
  revert a b d e f g h i
  decide

/-! Lemmas about the regex engine, used for the stock-status priority
claim. -/

/-- Case-insensitive comparison is reflexive. -/
theorem lowerEq_refl (c : Char) : lowerEq c c = true := by simp [lowerEq]

/-- A literal matches an input that starts with it, leaving the rest. -/
theorem matchLit_self (l r : List Char) : matchLit l (l ++ r) = some r := by
  induction l with
  | nil => rfl
  | cons c cs ih => simp [matchLit, lowerEq_refl, ih]

/-- A match at the scan start makes the whole search succeed. -/
theorem searchFrom_isSome_of_matchPat {p : Pat} {s : List Char}
    (h : matchPat p s ≠ []) : (searchFrom p s).isSome := by
  cases s with
  | nil =>
    rw [searchFrom]
    cases hm : matchPat p [] with
    | nil => exact absurd hm h
    | cons x xs => simp [firstCaps]
  | cons c cs =>
    rw [searchFrom]
    cases hm : matchPat p (c :: cs) with
    | nil => exact absurd hm h
    | cons x xs => simp [hm, firstCaps]

/-- Prepending a character preserves search success. -/
theorem searchFrom_isSome_cons {p : Pat} (c : Char) {cs : List Char}
    (h : (searchFrom p cs).isSome) : (searchFrom p (c :: cs)).isSome := by
  rw [searchFrom]
  cases hm : firstCaps (matchPat p (c :: cs)) with
  | some caps => simp
  | none => simpa using h

/-- Prepending any prefix preserves search success. -/
theorem searchFrom_isSome_append {p : Pat} (pre : List Char) {s : List Char}
    (h : (searchFrom p s).isSome) : (searchFrom p (pre ++ s)).isSome := by
  induction pre with
  | nil => simpa using h
  | cons c cs ih => exact searchFrom_isSome_cons c ih

/-- An alternation headed by a literal tests true on any text containing
that literal. -/
theorem reTest_alt_litci_of_infix {l : String} {q : Pat} {t : String}
    (h : l.data <:+: t.data) : reTest (Pat.alt (Pat.litci l) q) t = true := by
  obtain ⟨pre, post, hsplit⟩ := h
  have hm : matchPat (Pat.alt (Pat.litci l) q) (l.data ++ post) ≠ [] := by
    simp [matchPat, matchLit_self]
  have h1 := searchFrom_isSome_of_matchPat hm
  have h2 := searchFrom_isSome_append pre h1
  have ht : pre ++ (l.data ++ post) = t.data := by
    rw [← hsplit]; simp [List.append_assoc]
  rw [reTest, ← ht]
  exact h2

/-! Claim theorems. -/

/-- C1 counterexample: on the fact sets extracted from two empty strings
the detector does not return verdict unclear with one unclear flag; the
claim fails at this (only) input. -/
theorem c1_counterexample :
    ¬((detectContradictions (extractClaims "") (extractPolicy "")).verdict
        = Verdict.unclear
      ∧ (detectContradictions (extractClaims "") (extractPolicy "")).flags.count
          RuleFlag.unclear = 1) := by
  decide

/-- C1 (amended): detectContradictions on the fact sets extracted from two
empty strings yields verdict good with an empty flag list, because
extractPolicy always populates stockWarning (false on empty input), which
counts as a policy-side stock signal and keeps the no-signal rule from
firing. -/
theorem c1_amended_good :
    detectContradictions (extractClaims "") (extractPolicy "")
      = ⟨[], Verdict.good⟩ := by
  decide

/-- C2 counterexample: the fact set extracted by extractPolicy from the
empty string does not have all of its fields absent; its stockWarning field
is present and false. -/
theorem c2_counterexample :
    allFieldsAbsent (extractPolicy "") = false
      ∧ (extractPolicy "").stockWarning = some false := by
  decide

/-- C2 (amended): the extractors are total functions; on an empty or noise
input (one on which no field pattern matches), extractClaims returns a fact
set with every field absent, and extractPolicy returns every field absent
except stockWarning, which is present and false. -/
theorem c2_amended_extract_absent (s : String)
    (h1 : findReturnDays (normalizeText s) = none)
    (h2 : findWarrantyMonths (normalizeText s) = none)
    (h3 : findStockStatus (normalizeText s) = none)
    (h4 : findPriceValue (normalizeText s) = none)
    (h5 : findReturnsAllowed (normalizeText s) = none)
    (h6 : findWarrantyProvided (normalizeText s) = none)
    (h7 : findPriceGuarantee (normalizeText s) = none)
    (h8 : findPricePolicy (normalizeText s) = none)
    (h9 : findStockWarning (normalizeText s) = false) :
    allFieldsAbsent (extractClaims s) = true
      ∧ extractPolicy s = { stockWarning := some false } := by
  constructor
  · simp [extractClaims, allFieldsAbsent, h1, h2, h3, h4, h5, h6, h7]
  · simp [extractPolicy, h1, h2, h5, h6, h8, h9]

/-- C2 witness: the amended statement instantiated at the noise input
"hello". -/
theorem c2_amended_extract_absent_witness :
    allFieldsAbsent (extractClaims "hello") = true
      ∧ extractPolicy "hello" = { stockWarning := some false } :=
  c2_amended_extract_absent "hello" rfl rfl rfl rfl rfl rfl rfl rfl rfl

/-- C3: for every pair of fact sets the verdict of detectContradictions is
derived from its flag list by first-match priority: any conflict-suffixed
flag gives risk, else the unclear flag gives unclear, else a non-empty flag
list gives caution, else good. -/
theorem c3_verdict_derivation (c p : ExtractedFacts) :
    (detectContradictions c p).verdict
      = verdictFromFlagsSpec (detectContradictions c p).flags :=
  verdict_spec_eq (detectFlags c p)

/-- C3 witness: the derivation instantiated at the Scenario B fact sets. -/
theorem c3_verdict_derivation_witness :
    (detectContradictions scenarioBClaims scenarioBPolicy).verdict
      = verdictFromFlagsSpec
          (detectContradictions scenarioBClaims scenarioBPolicy).flags :=
  c3_verdict_derivation scenarioBClaims scenarioBPolicy

/-- C4: the seven conflict rules are evaluated independently and in the
fixed spec order; every triggered rule appends its flag, several rules may
fire in one run, and the output lists the contributions in exactly that
evaluation order (followed by the coverage-gap and no-signal unclear
rules). -/
theorem c4_rule_order (c p : ExtractedFacts) :
    (detectContradictions c p).flags = ruleFlagsSpec c p :=
  detect_flags_concat c p

/-- C4 witness: the rule-order equation instantiated at the Scenario B fact
sets, where the stock and price rules fire together. -/
theorem c4_rule_order_witness :
    (detectContradictions scenarioBClaims scenarioBPolicy).flags
      = ruleFlagsSpec scenarioBClaims scenarioBPolicy :=
  c4_rule_order scenarioBClaims scenarioBPolicy

/-- C5: the unclear flag occurs at most once in any detection run, and when
some topic is claimed but not policy-covered it is appended exactly once,
not once per topic. -/
theorem c5_unclear_at_most_once (c p : ExtractedFacts) :
    (detectContradictions c p).flags.count RuleFlag.unclear ≤ 1
      ∧ (coverageGapFires c p = true →
          (detectContradictions c p).flags.count RuleFlag.unclear = 1) := by
  have hflags : (detectContradictions c p).flags = ruleFlagsSpec c p :=
    detect_flags_concat c p
  constructor
  · rw [hflags, count_unclear_ruleFlagsSpec]
    cases hg : coverageGapFires c p with
    | false => cases noSignalFires c p <;> simp
    | true =>
      have hn := gap_implies_signal c p hg
      simp [hn]
  · intro hg
    rw [hflags, count_unclear_ruleFlagsSpec]
    have hn := gap_implies_signal c p hg
    simp [hg, hn]

/-- C5 witness: with returns and warranty both claimed against an empty
policy fact set (two uncovered topics), unclear appears exactly once. -/
theorem c5_unclear_at_most_once_witness :
    (detectContradictions gapClaims emptyFacts).flags.count RuleFlag.unclear = 1 :=
  (c5_unclear_at_most_once gapClaims emptyFacts).2 (by decide)

/-- C6 (code bug): the route handler of part_000 throws on every request
because it calls trackStep and respond, which are not defined in that
module, so no analysis_failed fallback is ever produced; the pieces of the
claimed mechanism are otherwise present: analyzeProduct records a failed
trace step with the error message and re-throws, and the handler's outer
catch clause, taken on its own, converts the thrown error into the complete
terminal fallback result. -/
theorem c6_post_reference_error :
    partZeroPOST prodFailEnv (Except.ok (some clearUrl))
        = Except.error "respond is not defined"
      ∧ analyzeProduct prodFailEnv "https://example.com/p"
        = Except.error ("network down",
            [⟨"Validate URL", StepStatus.done, none, none⟩,
             ⟨"Fetch Mino data", StepStatus.failed, some 0, some "network down"⟩])
      ∧ partZeroAnalyzeSection prodFailEnv "https://example.com/p"
          = analysisFailedFallback
      ∧ analysisFailedFallback.flags = [RuleFlag.analysis_failed]
      ∧ analysisFailedFallback.verdict = Verdict.unclear := by
  refine ⟨rfl, rfl, rfl, rfl, rfl⟩

/-- C7: analyzing the Scenario B test URL (claim text about a price match
guarantee, stock and free returns against a policy reserving price changes
and disclaiming availability) flags both stock_conflict and price_conflict,
gives verdict risk, and returns a null insight. -/
theorem c7_scenario_b :
    TEST_CASES conflictUrl
        = some ("Price match guarantee. In stock. Free returns in 30 days.",
            "Prices subject to change without notice. Availability not guaranteed.")
      ∧ analyzeProduct devEnv conflictUrl = Except.ok (devResultFor conflictUrl)
      ∧ RuleFlag.stock_conflict ∈ (devResultFor conflictUrl).flags
      ∧ RuleFlag.price_conflict ∈ (devResultFor conflictUrl).flags
      ∧ (devResultFor conflictUrl).verdict = Verdict.risk
      ∧ (devResultFor conflictUrl).insight = none := by
  refine ⟨rfl, rfl, by decide, by decide, by decide, rfl⟩

/-- C8: analyzeProduct on the empty URL string returns an immediate
terminal result whose flag list is exactly the invalid_url flag with
verdict unclear, and whose trace holds the single failed validation step
and nothing beyond it. -/
theorem c8_invalid_url (env : Env) :
    analyzeProduct env "" = Except.ok invalidUrlResult
      ∧ invalidUrlResult.flags = [RuleFlag.invalid_url]
      ∧ invalidUrlResult.verdict = Verdict.unclear
      ∧ invalidUrlResult.steps
          = [⟨"Validate URL", StepStatus.failed, none, some "Missing URL"⟩]
      ∧ invalidUrlResult.insight = none := by
  refine ⟨rfl, rfl, rfl, rfl, rfl⟩

/-- C8 witness: the statement instantiated at a concrete environment. -/
theorem c8_invalid_url_witness :
    analyzeProduct devEnv "" = Except.ok invalidUrlResult
      ∧ invalidUrlResult.flags = [RuleFlag.invalid_url]
      ∧ invalidUrlResult.verdict = Verdict.unclear
      ∧ invalidUrlResult.steps
          = [⟨"Validate URL", StepStatus.failed, none, some "Missing URL"⟩]
      ∧ invalidUrlResult.insight = none :=
  c8_invalid_url devEnv

/-- C9: stock-status extraction checks out-of-stock phrasing first, so on
every text containing both the in-stock and the out-of-stock phrase the
extracted status is out_of_stock. -/
theorem c9_stock_priority (t : String)
    (hout : "out of stock".data <:+: t.data)
    (hin : "in stock".data <:+: t.data) :
    findStockStatus t = some StockStatus.out_of_stock := by
  have h : reTest outOfStockP t = true := reTest_alt_litci_of_infix hout
  unfold findStockStatus
  rw [h]
  simp

/-- C9 witness: a text containing both phrases resolves to out of stock. -/
theorem c9_stock_priority_witness :
    findStockStatus "in stock but currently out of stock"
      = some StockStatus.out_of_stock :=
  c9_stock_priority "in stock but currently out of stock" (by decide) (by decide)

/-- C10: on the non-production (allow-listed test URL) path the insight of
the returned result is non-null exactly when the detector flag list is
empty. -/
theorem c10_insight_iff_no_flags (env : Env) (url : String) (tc : String × String)
    (hdev : env.isProduction = false) (htc : TEST_CASES url = some tc)
    (r : AnalyzeResult) (hr : analyzeProduct env url = Except.ok r) :
    r.insight ≠ none ↔ r.flags = [] := by
  obtain ⟨prod, mino⟩ := env
  simp only at hdev
  subst hdev
  unfold TEST_CASES at htc
  split_ifs at htc with h1 h2 h3
  · subst h1
    have he : analyzeProduct ⟨false, mino⟩ "https://example.com/product/clear"
        = Except.ok (devResultFor clearUrl) := rfl
    rw [he] at hr
    injection hr with h
    subst h
    decide
  · subst h2
    have he : analyzeProduct ⟨false, mino⟩ "https://example.com/product/conflict"
        = Except.ok (devResultFor conflictUrl) := rfl
    rw [he] at hr
    injection hr with h
    subst h
    decide
  · subst h3
    have he : analyzeProduct ⟨false, mino⟩ "https://example.com/product/unclear"
        = Except.ok (devResultFor unclearUrl) := rfl
    rw [he] at hr
    injection hr with h
    subst h
    decide

/-- C10 witness: at the unclear test URL the only flag is unclear and the
insight is null, matching the equivalence. -/
theorem c10_insight_iff_no_flags_witness :
    (devResultFor unclearUrl).insight ≠ none
      ↔ (devResultFor unclearUrl).flags = [] :=
  c10_insight_iff_no_flags devEnv unclearUrl ("Warranty included.", "") rfl rfl
    (devResultFor unclearUrl) rfl
